import Mathlib

/-!
Shallow embedding of the Terminology Resolution Engine of the
namaste-icd11-service repository (app/services/terminology.py,
app/utils/mapping.py, app/utils/similarity.py, app/schemas.py).

Scores and confidences (Python floats) are modelled as rationals; the
repository's string data is ASCII, so Python `str.lower()` is modelled by
ASCII lowercasing.  The external library `rapidfuzz` is not part of the
repository; its scorer `fuzz.partial_ratio` is passed to the search
pipeline as an explicit function parameter `pr`.
-/

/-- ASCII lowercasing of a single character, modelling Python `str.lower()`
on the ASCII data used by this repository. -/
def lowerChar (c : Char) : Char :=
  if 65 ≤ c.toNat ∧ c.toNat ≤ 90 then Char.ofNat (c.toNat + 32) else c

/-- Python `s.lower()` (ASCII). -/
def lowerStr (s : String) : String := ⟨s.data.map lowerChar⟩

/-- Auxiliary: list-of-chars prefix test. -/
def prefixOfL : List Char → List Char → Bool
  | [], _ => true
  | _ :: _, [] => false
  | a :: as, b :: bs => a == b && prefixOfL as bs

/-- Auxiliary: list-of-chars infix test. -/
def infixOfL (needle : List Char) : List Char → Bool
  | [] => needle.isEmpty
  | c :: t => prefixOfL needle (c :: t) || infixOfL needle t

/-- Python `needle in hay` on strings (substring containment). -/
def strContains (hay needle : String) : Bool := infixOfL needle.data hay.data

/-- Python `w.endswith(sfx)`. -/
def strEndsWith (w sfx : String) : Bool := prefixOfL sfx.data.reverse w.data.reverse

/-- Python `w[:-n]` for `n ≤ len(w)` (drop the last `n` characters). -/
def strDropRight (w : String) (n : Nat) : String := ⟨w.data.take (w.data.length - n)⟩

/-- Python `len(w)` (number of characters; the repository's data is ASCII). -/
def strLen (w : String) : Nat := w.data.length

/-!  app/utils/mapping.py  -/

/-- SYNONYM_MAP of app/utils/mapping.py, in dict insertion order. -/
def SYNONYM_MAP : List (String × List String) :=
  [("fever", ["jwara", "jvar", "pyrexia", "temperature"]),
   ("diarrhea", ["atisara", "loose motions", "dysentery"]),
   ("anemia", ["pandu", "raktalpata", "pallor"]),
   ("diabetes", ["madhumeha", "sugar disease", "prameha"]),
   ("arthritis", ["amavata", "sandhivata", "joint inflammation"]),
   ("tb", ["rajayakshma", "tuberculosis", "kshaya roga"]),
   ("asthma", ["shwasa", "breathing difficulty", "dyspnea"]),
   ("piles", ["arsha", "hemorrhoids", "bawaseer"]),
   ("skin disease", ["kushtha", "dermatitis", "twak roga"]),
   ("mental disorder", ["unmada", "psychosis", "mana vikara"])]

/-- expand_synonyms of app/utils/mapping.py.  The Python code builds
`expanded = [query.lower()]`, extends it with `synonyms + [key]` for every
entry whose synonym list contains the lowered query as an element or one of
whose synonyms is a substring of the lowered query, and finally returns
`list(set(expanded))`.  The set round-trip leaves the element order
unspecified; it is modelled by `List.dedup`, which preserves exactly the
set of elements (only membership in the result is relied on). -/
def expand_synonyms (query : String) : List String :=
  let q := lowerStr query
  let expanded := [q] ++ SYNONYM_MAP.foldl
    (fun acc kv =>
      if kv.2.contains q || kv.2.any (fun syn => strContains q syn) then
        acc ++ kv.2 ++ [kv.1]
      else acc) []
  expanded.dedup

/-- abbreviation_map of map_abbreviations in app/utils/mapping.py. -/
def ABBREVIATION_MAP : List (String × String) :=
  [("ra", "rheumatoid arthritis"),
   ("oa", "osteoarthritis"),
   ("tb", "tuberculosis"),
   ("dm", "diabetes mellitus"),
   ("cvd", "cardiovascular disease"),
   ("mi", "myocardial infarction"),
   ("copd", "chronic obstructive pulmonary disease"),
   ("uti", "urinary tract infection"),
   ("ari", "acute respiratory infection"),
   ("pid", "pelvic inflammatory disease")]

/-- map_abbreviations of app/utils/mapping.py: whole-term case-insensitive
match against the abbreviation table, first match wins, else unchanged. -/
def map_abbreviations (query : String) : String :=
  match ABBREVIATION_MAP.find? (fun kv => lowerStr query == kv.1) with
  | some kv => kv.2
  | none => query

/-!  app/utils/similarity.py  -/

/-- Suffix list of stem_word in app/utils/similarity.py, in source order:
`['ing', 'ed', 's', 'es', 'ies', 'ly']`. -/
def SUFFIXES : List String := ["ing", "ed", "s", "es", "ies", "ly"]

/-- stem_word of app/utils/similarity.py: the first suffix of `SUFFIXES`
(in list order) that the word ends with is removed; the loop breaks after
the first hit. -/
def stem_word (word : String) : String :=
  match SUFFIXES.find? (fun sfx => strEndsWith word sfx) with
  | some sfx => strDropRight word (strLen sfx)
  | none => word

/-- ASCII alphabetic character ([a-zA-Z]). -/
def isAlphaC (c : Char) : Bool :=
  (97 ≤ c.toNat && c.toNat ≤ 122) || (65 ≤ c.toNat && c.toNat ≤ 90)

/-- Regex word character ([a-zA-Z0-9_]), as used by the `\b` boundary in
`re.findall(r'\b[a-zA-Z]+\b', ...)`. -/
def isWordC (c : Char) : Bool :=
  isAlphaC c || (48 ≤ c.toNat && c.toNat ≤ 57) || c.toNat == 95

/-- Scanner for `re.findall(r'\b[a-zA-Z]+\b', text)`: collects maximal
alphabetic runs; a run is kept only when the characters adjacent to it (if
any) are not word characters, which is the `\b` boundary condition.  The
second argument is the run in progress (left-boundary flag, reversed
characters); the third records whether the previous character was a word
character. -/
def scanWords : List Char → Option (Bool × List Char) → Bool → List String
  | [], none, _ => []
  | [], some (lok, rev), _ => if lok then [⟨rev.reverse⟩] else []
  | c :: rest, none, prevWord =>
    if isAlphaC c then scanWords rest (some (!prevWord, [c])) true
    else scanWords rest none (isWordC c)
  | c :: rest, some (lok, rev), _ =>
    if isAlphaC c then scanWords rest (some (lok, c :: rev)) true
    else
      (if lok && !(isWordC c) then [⟨rev.reverse⟩] else []) ++
        scanWords rest none (isWordC c)

/-- Python `re.findall(r'\b[a-zA-Z]+\b', text)`. -/
def findallWords (text : String) : List String := scanWords text.data none false

/-- Stopword set of extract_keywords in app/utils/similarity.py. -/
def STOPWORDS : List String := ["the", "and", "or", "in", "of", "for", "with", "to", "a", "an"]

/-- extract_keywords of app/utils/similarity.py: lowercase, tokenize on
alphabetic runs, keep tokens that are not stopwords and have length > 2,
then stem each kept token. -/
def extract_keywords (text : String) : List String :=
  ((findallWords (lowerStr text)).filter
    (fun w => !(STOPWORDS.contains w) && strLen w > 2)).map stem_word

/-!  app/schemas.py and the data model of TerminologyService  -/

/-- CodeSystemType of app/schemas.py. -/
inductive CodeSystemType where
  | NAMASTE
  | ICD11_TM2
  | ICD11_BIO
deriving DecidableEq

/-- One dataset record (a Python dict of app/data demo or CSV data).
Fields read with `dict.get(key)` and possibly absent are `Option`s;
fields read with a `""`/`[]` default are plain. -/
structure TermRecord where
  id : String
  code : String
  display : String
  definition : String := ""
  synonyms : List String := []
  dosha : String := ""
  system_field : String := ""
  category : String := ""
  parent_code : String := ""
  icd11_tm2_code : Option String := none
  icd11_bio_code : Option String := none
  mapping_confidence : Option ℚ := none
  version : String := ""
  effective_date : String := ""
deriving DecidableEq

/-- The three per-system collections held by TerminologyService, plus the
version labels of self.versions. -/
structure TermStore where
  namaste_data : List TermRecord
  icd11_tm2_data : List TermRecord
  icd11_bio_data : List TermRecord
  versions : List String := []
deriving DecidableEq

/-- Python dict comprehension lookup `{key(item): item for item in data}[k]`:
when several records share a key the later one overwrites, so the lookup
finds the last record with that key. -/
def dictGet (data : List TermRecord) (key : TermRecord → String) (k : String) :
    Option TermRecord :=
  data.reverse.find? (fun r => key r == k)

/-- One row of the unified search index built by _create_search_index. -/
structure IndexRow where
  id : String
  code : String
  display : String
  definition : String := ""
  system : CodeSystemType
  synonyms : List String := []
  dosha : String := ""
  category : String := ""
  parent_code : String := ""
  mapped_tm2 : String := ""
  mapped_bio : String := ""
  search_text : String := ""
  version : String := ""
  effective_date : String := ""
deriving DecidableEq

/-- Python `' '.join(xs)`. -/
def joinSpace : List String → String
  | [] => ""
  | [s] => s
  | s :: rest => s ++ " " ++ joinSpace rest

/-- Python `item.get(k, "")` on an optional string field. -/
def optStr (o : Option String) : String := o.getD ""

/-- _create_search_index of TerminologyService: one row per record across
the three collections, NAMASTE first, then TM2, then BIO, each with its
concatenated search_text blob. -/
def create_search_index (st : TermStore) : List IndexRow :=
  (st.namaste_data.map fun item =>
    { id := item.id, code := item.code, display := item.display,
      definition := item.definition, system := CodeSystemType.NAMASTE,
      synonyms := item.synonyms, dosha := item.dosha,
      category := item.system_field,
      mapped_tm2 := optStr item.icd11_tm2_code,
      mapped_bio := optStr item.icd11_bio_code,
      search_text := item.display ++ " " ++ joinSpace item.synonyms ++ " " ++
        item.definition ++ " " ++ item.dosha ++ " " ++ item.system_field,
      version := item.version, effective_date := item.effective_date }) ++
  (st.icd11_tm2_data.map fun item =>
    { id := item.id, code := item.code, display := item.display,
      definition := item.definition, system := CodeSystemType.ICD11_TM2,
      category := item.category, parent_code := item.parent_code,
      mapped_bio := optStr item.icd11_bio_code,
      search_text := item.display ++ " " ++ item.definition ++ " " ++ item.category,
      version := item.version, effective_date := item.effective_date }) ++
  (st.icd11_bio_data.map fun item =>
    { id := item.id, code := item.code, display := item.display,
      definition := item.definition, system := CodeSystemType.ICD11_BIO,
      category := item.category,
      search_text := item.display ++ " " ++ item.definition ++ " " ++ item.category,
      version := item.version, effective_date := item.effective_date })

/-!  Context boosting (_apply_context_boosting and helpers)  -/

/-- Pediatric marker terms of _apply_context_boosting. -/
def PEDIATRIC_TERMS : List String := ["pediatric", "child", "infant", "juvenile"]

/-- Geriatric marker terms of _apply_context_boosting. -/
def GERIATRIC_TERMS : List String := ["geriatric", "elderly", "senior", "age-related"]

/-- Female-associated terms of _apply_context_boosting. -/
def FEMALE_TERMS : List String :=
  ["female", "woman", "women", "gynec", "obstet", "menstrual", "pregnancy"]

/-- Male-associated terms of _apply_context_boosting. -/
def MALE_TERMS : List String := ["male", "man", "men", "andro", "prostate", "testicular"]

/-- complication_keywords of _is_complication_of. -/
def COMPLICATION_KEYWORDS : List String :=
  ["complication", "secondary", "due to", "caused by",
   "associated with", "related to", "result of"]

/-- related_terms_map of _get_related_terms. -/
def RELATED_TERMS_MAP : List (String × List String) :=
  [("diabetes", ["diabetic", "madumeha", "sugar", "glucose", "hyperglycem", "insulin"]),
   ("hypertension", ["hypertensive", "high blood pressure", "htn", "bp"]),
   ("fever", ["jwara", "pyrexia", "temperature", "febrile"]),
   ("arthritis", ["joint", "amavata", "rheumat", "arthralgia"]),
   ("asthma", ["shwasa", "breathing", "wheez", "bronch"]),
   ("tb", ["tuberculosis", "rajayakshma", "kshaya", "mycobacter"]),
   ("anemia", ["pandu", "hemoglobin", "iron", "hemat"])]

/-- _get_related_terms of TerminologyService: the term list of the first
map entry whose key is a substring of the condition, else empty. -/
def get_related_terms (condition : String) : List String :=
  match RELATED_TERMS_MAP.find? (fun kv => strContains condition kv.1) with
  | some kv => kv.2
  | none => []

/-- _is_complication_of of TerminologyService: true when, for some supplied
condition, the row's lowered search text contains both the lowered
condition and one of the complication keywords. -/
def is_complication_of (item : IndexRow) (existing_conditions : List String) : Bool :=
  let item_text := lowerStr item.search_text
  existing_conditions.any (fun condition =>
    strContains item_text (lowerStr condition) &&
      COMPLICATION_KEYWORDS.any (fun kw => strContains item_text kw))

/-- Loop body of the existing-conditions boost of _apply_context_boosting:
for one condition, the running score is multiplied by exactly one of
3.0 (direct substring match), 4.0 (complication), 2.5 (related term) or
left unchanged, following the if/elif ladder of the source. -/
def condition_step (item : IndexRow) (b : ℚ) (condition : String) : ℚ :=
  let text := lowerStr item.search_text
  let cl := lowerStr condition
  if strContains text cl then b * 3
  else if is_complication_of item [condition] then b * 4
  else if (get_related_terms cl).any (fun t => strContains text t) then b * (5/2)
  else b

/-- Age block of _apply_context_boosting.  The Python guard `if patient_age:`
is truthiness: both `None` and age `0` skip the block. -/
def age_boost (b : ℚ) (item : IndexRow) (patient_age : Option ℤ) : ℚ :=
  let text := lowerStr item.search_text
  match patient_age with
  | none => b
  | some age =>
    if age = 0 then b
    else if age < 18 ∧ PEDIATRIC_TERMS.any (fun t => strContains text t) then b * (5/2)
    else if age > 65 ∧ GERIATRIC_TERMS.any (fun t => strContains text t) then b * (5/2)
    else b

/-- Gender block of _apply_context_boosting (`if patient_gender:` skips on
`None` and the empty string). -/
def gender_boost (b : ℚ) (item : IndexRow) (patient_gender : Option String) : ℚ :=
  let text := lowerStr item.search_text
  match patient_gender with
  | none => b
  | some g =>
    if g = "" then b
    else
      let gl := lowerStr g
      let gender_terms :=
        if gl = "female" then FEMALE_TERMS
        else if gl = "male" then MALE_TERMS
        else []
      if gender_terms.any (fun t => strContains text t) then b * (5/2) else b

/-- Existing-conditions block of _apply_context_boosting: the per-condition
loop, one `condition_step` per supplied condition.  An empty list is falsy
in Python and skips the block, which coincides with an empty fold. -/
def conditions_boost (b : ℚ) (item : IndexRow)
    (existing_conditions : Option (List String)) : ℚ :=
  match existing_conditions with
  | none => b
  | some conds => conds.foldl (condition_step item) b

/-- Symptoms block of _apply_context_boosting: the loop multiplies by 2.0 at
the first symptom contained in the search text and breaks, so the factor is
applied at most once. -/
def symptoms_boost (b : ℚ) (item : IndexRow) (symptoms : Option (List String)) : ℚ :=
  let text := lowerStr item.search_text
  match symptoms with
  | none => b
  | some ss =>
    if ss.any (fun sy => strContains text (lowerStr sy)) then b * 2 else b

/-- _apply_context_boosting of TerminologyService: the four boost blocks
applied in source order to the running score, capped at 1.0. -/
def apply_context_boosting (score : ℚ) (item : IndexRow) (patient_age : Option ℤ)
    (patient_gender : Option String) (existing_conditions : Option (List String))
    (symptoms : Option (List String)) : ℚ :=
  min (symptoms_boost
    (conditions_boost
      (gender_boost (age_boost score item patient_age) item patient_gender)
      item existing_conditions)
    item symptoms) 1

/-!  search_terms and its pipeline  -/

/-- SearchResult of app/schemas.py (the fields search_terms fills in). -/
structure SearchResult where
  id : String
  code : String
  display : String
  definition : String := ""
  system : CodeSystemType := CodeSystemType.NAMASTE
  score : ℚ := 0
  mapping_confidence : Option ℚ := none
  mapped_codes : Option (List (String × String)) := none
  version : String := ""
  effective_date : String := ""
deriving DecidableEq

/-- Python `max(xs) if xs else 0`. -/
def listMax : List ℚ → ℚ
  | [] => 0
  | x :: xs => xs.foldl max x

/-- Base (pre-boost) score of one index row for one query variant, from the
body of search_terms: 1.0 on a case-insensitive substring hit in the
display or a synonym, else the maximum of the partial-ratio scores against
display, synonyms and definition.  `pr` is rapidfuzz `fuzz.partial_ratio`
(an external library, passed as a parameter), whose value the source
divides by 100. -/
def base_score (pr : String → String → ℚ) (search_query : String) (item : IndexRow) : ℚ :=
  let exact_match :=
    strContains (lowerStr item.display) (lowerStr search_query) ||
      item.synonyms.any (fun syn => strContains (lowerStr syn) (lowerStr search_query))
  if exact_match then 1
  else
    let display_score := pr search_query item.display / 100
    let synonym_scores := item.synonyms.map (fun syn => pr search_query syn / 100)
    let definition_score := pr search_query item.definition / 100
    max display_score (max (listMax synonym_scores) definition_score)

/-- The mapped_codes dict built by search_terms for one row: present
mapping fields of a NAMASTE row, the bio mapping of a TM2 row, nothing for
a BIO row. -/
def mapped_codes_for (item : IndexRow) : List (String × String) :=
  match item.system with
  | CodeSystemType.NAMASTE =>
    (if item.mapped_tm2 ≠ "" then [("icd11_tm2", item.mapped_tm2)] else []) ++
      (if item.mapped_bio ≠ "" then [("icd11_bio", item.mapped_bio)] else [])
  | CodeSystemType.ICD11_TM2 =>
    if item.mapped_bio ≠ "" then [("icd11_bio", item.mapped_bio)] else []
  | CodeSystemType.ICD11_BIO => []

/-- One iteration of the inner loop of search_terms: skip rows excluded by
the system filter, score the row, boost, and keep it only above the 0.3
threshold. -/
def row_result (pr : String → String → ℚ) (search_query : String) (item : IndexRow)
    (system : Option CodeSystemType) (patient_age : Option ℤ)
    (patient_gender : Option String) (existing_conditions : Option (List String))
    (symptoms : Option (List String)) : Option SearchResult :=
  if (match system with | some s => decide (item.system ≠ s) | none => false) then none
  else
    let score0 := base_score pr search_query item
    let score := apply_context_boosting score0 item patient_age patient_gender
      existing_conditions symptoms
    if score > 3/10 then
      some { id := item.id, code := item.code, display := item.display,
             definition := item.definition, system := item.system, score := score,
             mapping_confidence :=
               if mapped_codes_for item ≠ [] then some (9/10) else none,
             mapped_codes :=
               if mapped_codes_for item ≠ [] then some (mapped_codes_for item) else none,
             version := item.version, effective_date := item.effective_date }
    else none

/-- The deduplication loop of search_terms: walk the scored results in
order, keep a result only when its id has not been seen yet. -/
def dedupe_by_id : List SearchResult → List String → List SearchResult
  | [], _ => []
  | r :: rest, seen =>
    if r.id ∈ seen then dedupe_by_id rest seen
    else r :: dedupe_by_id rest (r.id :: seen)

/-- Comparison used by `unique_results.sort(key=lambda x: x.score, reverse=True)`:
descending by score. -/
def scoreGe (a b : SearchResult) : Prop := b.score ≤ a.score

instance : DecidableRel scoreGe :=
  fun a b => inferInstanceAs (Decidable (b.score ≤ a.score))

instance : IsTotal SearchResult scoreGe := ⟨fun a b => le_total b.score a.score⟩

instance : IsTrans SearchResult scoreGe :=
  ⟨fun _ _ _ hab hbc => le_trans hbc hab⟩

/-- search_terms of TerminologyService: normalize and expand the query,
score every index row under every variant, deduplicate by id (first
occurrence wins), sort by score descending (a stable sort, modelling
Python list.sort), and return the first `limit` results. -/
def search_terms (pr : String → String → ℚ) (index : List IndexRow) (query : String)
    (system : Option CodeSystemType) (patient_age : Option ℤ)
    (patient_gender : Option String) (existing_conditions : Option (List String))
    (symptoms : Option (List String)) (limit : ℕ) : List SearchResult :=
  let processed_query := map_abbreviations query
  let expanded_queries := expand_synonyms processed_query
  let results := expanded_queries.flatMap (fun sq =>
    index.filterMap (fun item =>
      row_result pr sq item system patient_age patient_gender
        existing_conditions symptoms))
  let unique_results := dedupe_by_id results []
  (List.insertionSort scoreGe unique_results).take limit

/-!  translate_code  -/

/-- TranslateResponse of app/schemas.py. -/
structure TranslateResponse where
  source_code : String
  source_display : String
  target_code : String
  target_display : String
  confidence : ℚ
  source_version : String := ""
  target_version : String := ""
deriving DecidableEq

/-- Python truthiness of an optional string: `None` and `""` are falsy. -/
def strTruthyOpt : Option String → Bool
  | none => false
  | some s => s ≠ ""

/-- Source-item lookup of translate_code: by exact code first, falling back
to lookup by id, within the source system's collection. -/
def find_source (st : TermStore) (source_system : CodeSystemType) (code : String) :
    Option TermRecord :=
  match source_system with
  | CodeSystemType.NAMASTE =>
    (dictGet st.namaste_data TermRecord.code code).orElse
      (fun _ => dictGet st.namaste_data TermRecord.id code)
  | CodeSystemType.ICD11_TM2 =>
    (dictGet st.icd11_tm2_data TermRecord.code code).orElse
      (fun _ => dictGet st.icd11_tm2_data TermRecord.id code)
  | CodeSystemType.ICD11_BIO =>
    (dictGet st.icd11_bio_data TermRecord.code code).orElse
      (fun _ => dictGet st.icd11_bio_data TermRecord.id code)

/-- _get_target_version of TerminologyService. -/
def get_target_version (st : TermStore) (system : CodeSystemType) : String :=
  match system with
  | CodeSystemType.NAMASTE =>
    match st.versions.getLast? with
    | some v => v
    | none => "1.0.0"
  | _ => "2024-01"

/-- translate_code of TerminologyService.  The four supported paths set
(target_code, target_display, confidence); every other source/target pair
leaves target_code unset.  A falsy target_code (None or empty) yields
`none`, the NotFound result. -/
def translate_code (st : TermStore) (code : String)
    (source_system target_system : CodeSystemType) : Option TranslateResponse :=
  match find_source st source_system code with
  | none => none
  | some source_item =>
    let step : Option String × Option String × ℚ :=
      if source_system = CodeSystemType.NAMASTE ∧
          target_system = CodeSystemType.ICD11_TM2 then
        let target_code := source_item.icd11_tm2_code
        if strTruthyOpt target_code then
          let target_item := dictGet st.icd11_tm2_data TermRecord.code (optStr target_code)
          (target_code, target_item.map TermRecord.display,
            source_item.mapping_confidence.getD (4/5))
        else (target_code, none, 0)
      else if source_system = CodeSystemType.NAMASTE ∧
          target_system = CodeSystemType.ICD11_BIO then
        let target_code := source_item.icd11_bio_code
        if strTruthyOpt target_code then
          let target_item := dictGet st.icd11_bio_data TermRecord.code (optStr target_code)
          (target_code, target_item.map TermRecord.display,
            source_item.mapping_confidence.getD (4/5) * (9/10))
        else (target_code, none, 0)
      else if source_system = CodeSystemType.ICD11_TM2 ∧
          target_system = CodeSystemType.ICD11_BIO then
        let target_code := source_item.icd11_bio_code
        if strTruthyOpt target_code then
          let target_item := dictGet st.icd11_bio_data TermRecord.code (optStr target_code)
          (target_code, target_item.map TermRecord.display, 17/20)
        else (target_code, none, 0)
      else if source_system = CodeSystemType.ICD11_TM2 ∧
          target_system = CodeSystemType.NAMASTE then
        match st.namaste_data.find? (fun it => it.icd11_tm2_code == some code) with
        | some namaste_item =>
          (some namaste_item.code, some namaste_item.display,
            namaste_item.mapping_confidence.getD (4/5) * (9/10))
        | none => (none, none, 0)
      else (none, none, 0)
    if strTruthyOpt step.1 then
      some { source_code := code, source_display := source_item.display,
             target_code := optStr step.1, target_display := optStr step.2.1,
             confidence := step.2.2, source_version := source_item.version,
             target_version := get_target_version st target_system }
    else none

/-!  Concrete inputs used by the witnesses and counterexamples below.  -/

/-- Degenerate external scorer (never consulted in the scenarios where it
appears: those take the exact-match branch). -/
def prZero : String → String → ℚ := fun _ _ => 0

/-- External scorer returning a constant partial ratio of 50. -/
def pr50 : String → String → ℚ := fun _ _ => 50

/-- An index row whose display (hence search text) contains "diabetes". -/
def item6 : IndexRow :=
  { id := "R1", code := "C1", display := "diabetes mellitus",
    system := CodeSystemType.NAMASTE,
    search_text := "diabetes mellitus madhumeha" }

/-- An index row whose search text contains "diabetes" but whose display
gives no exact match for the query "diabetes". -/
def item6w : IndexRow :=
  { id := "R2", code := "C2", display := "Madhumeha",
    system := CodeSystemType.NAMASTE,
    search_text := "diabetes mellitus madhumeha" }

/-- An index row whose search text contains a condition together with a
complication marker. -/
def item7 : IndexRow :=
  { id := "R7", code := "C7", display := "Diabetic foot",
    system := CodeSystemType.NAMASTE,
    search_text := "diabetes complication of foot" }

/-- An index row whose search text contains a pediatric marker. -/
def itemPed : IndexRow :=
  { id := "R8", code := "C8", display := "Fever",
    system := CodeSystemType.NAMASTE,
    search_text := "pediatric fever" }

/-- An index row with no marker terms at all. -/
def item10 : IndexRow :=
  { id := "R10", code := "C10", display := "Plain",
    system := CodeSystemType.NAMASTE, search_text := "plain" }

/-- Two scored results sharing one id: the first seen has the lower score. -/
def resultA4 : SearchResult := { id := "A", code := "K1", display := "first", score := 2/5 }

/-- Second result with the same id and a higher score. -/
def resultB4 : SearchResult := { id := "A", code := "K2", display := "second", score := 4/5 }

/-- A NAMASTE record mapped to TM2 code "TM26.0" with stored confidence 0.9. -/
def nrec2 : TermRecord :=
  { id := "N1", code := "AY001", display := "Jwara",
    icd11_tm2_code := some "TM26.0", mapping_confidence := some (9/10) }

/-- The TM2 record carrying code "TM26.0". -/
def trec2 : TermRecord :=
  { id := "T1", code := "TM26.0", display := "Traditional fever disorder" }

/-- A store holding exactly the two records above. -/
def store2 : TermStore :=
  { namaste_data := [nrec2], icd11_tm2_data := [trec2], icd11_bio_data := [] }

/-- An empty store. -/
def store3 : TermStore :=
  { namaste_data := [], icd11_tm2_data := [], icd11_bio_data := [] }

/-!  Helper lemmas.  -/

/-- Every result the deduplication loop keeps has an id outside the seen set. -/
theorem dedupe_mem_not_seen (rs : List SearchResult) :
    ∀ (seen : List String), ∀ r ∈ dedupe_by_id rs seen, r.id ∉ seen := by
  induction rs with
  | nil => intro seen r hr; simp [dedupe_by_id] at hr
  | cons a rest ih =>
    intro seen r hr
    by_cases h : a.id ∈ seen
    · rw [dedupe_by_id, if_pos h] at hr
      exact ih seen r hr
    · rw [dedupe_by_id, if_neg h] at hr
      rcases List.mem_cons.1 hr with heq | hmem
      · subst heq; exact h
      · intro hcontra
        exact ih (a.id :: seen) r hmem (List.mem_cons_of_mem _ hcontra)

/-- The ids of the deduplicated list are pairwise distinct. -/
theorem dedupe_map_nodup (rs : List SearchResult) :
    ∀ (seen : List String), ((dedupe_by_id rs seen).map SearchResult.id).Nodup := by
  induction rs with
  | nil => intro seen; simp [dedupe_by_id]
  | cons a rest ih =>
    intro seen
    by_cases h : a.id ∈ seen
    · rw [dedupe_by_id, if_pos h]; exact ih seen
    · rw [dedupe_by_id, if_neg h]
      simp only [List.map_cons, List.nodup_cons]
      refine ⟨fun hmem => ?_, ih _⟩
      rcases List.mem_map.1 hmem with ⟨r, hr, hid⟩
      exact dedupe_mem_not_seen rest _ r hr (hid ▸ List.mem_cons_self _ _)

/-- With the sought id already seen, the deduplication loop never emits it. -/
theorem dedupe_find_of_seen (i : String) (rs : List SearchResult) :
    ∀ (seen : List String), i ∈ seen →
      (dedupe_by_id rs seen).find? (fun r => r.id == i) = none := by
  induction rs with
  | nil => intro seen _; simp [dedupe_by_id]
  | cons a rest ih =>
    intro seen hi
    by_cases h : a.id ∈ seen
    · rw [dedupe_by_id, if_pos h]; exact ih seen hi
    · rw [dedupe_by_id, if_neg h]
      have hne : (a.id == i) = false := by
        simp only [beq_eq_false_iff_ne, ne_eq]
        intro heq; exact h (heq ▸ hi)
      rw [List.find?_cons, hne]
      exact ih (a.id :: seen) (List.mem_cons_of_mem _ hi)

/-- With the sought id not yet seen, the deduplication loop preserves the
first hit of `find?`. -/
theorem dedupe_find_of_not_seen (i : String) (rs : List SearchResult) :
    ∀ (seen : List String), i ∉ seen →
      (dedupe_by_id rs seen).find? (fun r => r.id == i) =
        rs.find? (fun r => r.id == i) := by
  induction rs with
  | nil => intro seen _; simp [dedupe_by_id]
  | cons a rest ih =>
    intro seen hi
    by_cases h : a.id ∈ seen
    · rw [dedupe_by_id, if_pos h]
      have hne : (a.id == i) = false := by
        simp only [beq_eq_false_iff_ne, ne_eq]
        intro heq; exact hi (heq ▸ h)
      rw [List.find?_cons, hne, ih seen hi]
    · rw [dedupe_by_id, if_neg h]
      by_cases hai : a.id = i
      · rw [List.find?_cons, List.find?_cons]
        have : (a.id == i) = true := by simp [hai]
        rw [this]
      · have hne : (a.id == i) = false := by simp [hai]
        rw [List.find?_cons, List.find?_cons, hne]
        refine ih (a.id :: seen) ?_
        intro hmem
        rcases List.mem_cons.1 hmem with heq | hmem2
        · exact hai heq.symm
        · exact hi hmem2

/-- One condition step multiplies the running score by a factor of at least
one, so it never lowers a nonnegative score. -/
theorem condition_step_bounds (item : IndexRow) (b : ℚ) (condition : String)
    (hb : 0 ≤ b) :
    b ≤ condition_step item b condition ∧ 0 ≤ condition_step item b condition := by
  simp only [condition_step]
  split_ifs
  · exact ⟨le_mul_of_one_le_right hb (by norm_num),
      mul_nonneg hb (by norm_num)⟩
  · exact ⟨le_mul_of_one_le_right hb (by norm_num),
      mul_nonneg hb (by norm_num)⟩
  · exact ⟨le_mul_of_one_le_right hb (by norm_num),
      mul_nonneg hb (by norm_num)⟩
  · exact ⟨le_refl b, hb⟩

/-- Folding condition steps over any condition list never lowers a
nonnegative score. -/
theorem conditions_fold_bounds (item : IndexRow) (conds : List String) :
    ∀ (b : ℚ), 0 ≤ b →
      b ≤ conds.foldl (condition_step item) b ∧
        0 ≤ conds.foldl (condition_step item) b := by
  induction conds with
  | nil => intro b hb; exact ⟨le_refl b, hb⟩
  | cons c cs ih =>
    intro b hb
    have h1 := condition_step_bounds item b c hb
    have h2 := ih (condition_step item b c) h1.2
    simp only [List.foldl_cons]
    exact ⟨le_trans h1.1 h2.1, h2.2⟩

/-- The age block never lowers a nonnegative score. -/
theorem age_boost_bounds (item : IndexRow) (patient_age : Option ℤ) (b : ℚ)
    (hb : 0 ≤ b) :
    b ≤ age_boost b item patient_age ∧ 0 ≤ age_boost b item patient_age := by
  cases patient_age with
  | none => exact ⟨le_refl b, hb⟩
  | some age =>
    simp only [age_boost]
    split_ifs
    · exact ⟨le_refl b, hb⟩
    · exact ⟨le_mul_of_one_le_right hb (by norm_num), mul_nonneg hb (by norm_num)⟩
    · exact ⟨le_mul_of_one_le_right hb (by norm_num), mul_nonneg hb (by norm_num)⟩
    · exact ⟨le_refl b, hb⟩

/-- The gender block never lowers a nonnegative score. -/
theorem gender_boost_bounds (item : IndexRow) (patient_gender : Option String)
    (b : ℚ) (hb : 0 ≤ b) :
    b ≤ gender_boost b item patient_gender ∧ 0 ≤ gender_boost b item patient_gender := by
  cases patient_gender with
  | none => exact ⟨le_refl b, hb⟩
  | some g =>
    simp only [gender_boost]
    split_ifs
    all_goals
      first
      | exact ⟨le_refl b, hb⟩
      | exact ⟨le_mul_of_one_le_right hb (by norm_num), mul_nonneg hb (by norm_num)⟩

/-- The conditions block never lowers a nonnegative score. -/
theorem conditions_boost_bounds (item : IndexRow)
    (existing_conditions : Option (List String)) (b : ℚ) (hb : 0 ≤ b) :
    b ≤ conditions_boost b item existing_conditions ∧
      0 ≤ conditions_boost b item existing_conditions := by
  cases existing_conditions with
  | none => simp only [conditions_boost]; exact ⟨le_refl b, hb⟩
  | some conds =>
    simp only [conditions_boost]
    exact conditions_fold_bounds item conds b hb

/-- The symptoms block never lowers a nonnegative score. -/
theorem symptoms_boost_bounds (item : IndexRow) (symptoms : Option (List String))
    (b : ℚ) (hb : 0 ≤ b) :
    b ≤ symptoms_boost b item symptoms ∧ 0 ≤ symptoms_boost b item symptoms := by
  cases symptoms with
  | none => exact ⟨le_refl b, hb⟩
  | some ss =>
    simp only [symptoms_boost]
    split_ifs
    · exact ⟨le_mul_of_one_le_right hb (by norm_num), mul_nonneg hb (by norm_num)⟩
    · exact ⟨le_refl b, hb⟩

/-- A fold of binary maxima is bounded by any bound on the seed and the
elements. -/
theorem foldl_max_le (c : ℚ) (xs : List ℚ) :
    ∀ (b : ℚ), b ≤ c → (∀ x ∈ xs, x ≤ c) → xs.foldl max b ≤ c := by
  induction xs with
  | nil => intro b hb _; exact hb
  | cons x rest ih =>
    intro b hb hall
    simp only [List.foldl_cons]
    exact ih (max b x) (max_le hb (hall x (List.mem_cons_self _ _)))
      (fun y hy => hall y (List.mem_cons_of_mem _ hy))

/-- `listMax` is bounded by any nonnegative bound on the elements. -/
theorem listMax_le (c : ℚ) (hc : 0 ≤ c) (xs : List ℚ) (hall : ∀ x ∈ xs, x ≤ c) :
    listMax xs ≤ c := by
  cases xs with
  | nil => exact hc
  | cons x rest =>
    unfold listMax
    exact foldl_max_le c rest x (hall x (List.mem_cons_self _ _))
      (fun y hy => hall y (List.mem_cons_of_mem _ hy))

/-- With the external partial-ratio scorer ranging over [0, 100], the base
score of any row for any variant lies in [0, 1]. -/
theorem base_score_bounds (pr : String → String → ℚ) (search_query : String)
    (item : IndexRow) (hpr : ∀ a b, 0 ≤ pr a b ∧ pr a b ≤ 100) :
    0 ≤ base_score pr search_query item ∧ base_score pr search_query item ≤ 1 := by
  simp only [base_score]
  split_ifs
  · exact ⟨by norm_num, le_refl 1⟩
  · constructor
    · exact le_trans (div_nonneg (hpr search_query item.display).1 (by norm_num))
        (le_max_left _ _)
    · refine max_le ?_ (max_le ?_ ?_)
      · exact div_le_one_of_le₀ (hpr search_query item.display).2 (by norm_num)
      · refine listMax_le 1 (by norm_num) _ ?_
        intro x hx
        rcases List.mem_map.1 hx with ⟨syn, _, rfl⟩
        exact div_le_one_of_le₀ (hpr search_query syn).2 (by norm_num)
      · exact div_le_one_of_le₀ (hpr search_query item.definition).2 (by norm_num)

/-!  Claim theorems.  -/

/-- C9: the claim says the suffixes are tried in the order
ing, ed, es, ies, ly, s, so that a token ending in "es" loses "es".  The
source list is `['ing', 'ed', 's', 'es', 'ies', 'ly']`: "s" precedes "es"
and "ies", so a token kept by extract_keywords that ends in "es" loses only
"s" ("boxes" stems to "boxe", not "box"); the "es" and "ies" entries can
never fire. -/
theorem C9_es_suffix_not_stripped :
    stem_word "boxes" = "boxe" ∧ extract_keywords "boxes" = ["boxe"] ∧
      "boxe" ≠ "box" := by decide

/-- C7: on a row whose search text contains both the condition and a
complication marker, the claim says the factor is 4.0; the source's
`elif _is_complication_of` branch is unreachable (its guard implies the
direct-substring guard), so the factor applied is 3.0: a base score of 1/5
becomes 3/5, not 4/5. -/
theorem C7_complication_rows_get_factor_three :
    is_complication_of item7 ["diabetes"] = true ∧
    apply_context_boosting (1/5) item7 none none (some ["diabetes"]) none = 3/5 ∧
    (3/5 : ℚ) ≠ (1/5) * 4 := by
  refine ⟨by decide, ?_, by norm_num⟩
  norm_num +decide [apply_context_boosting, age_boost, gender_boost, conditions_boost,
    symptoms_boost, condition_step, item7]

/-- C8: the claim says every patient_age below 18 — including 0 — with a
pediatric-marker row multiplies the base score by 2.5.  The source guard
`if patient_age:` is falsy at age 0, so age 0 gets no boost (1/5 stays
1/5), while age 5 is boosted to 1/2. -/
theorem C8_age_zero_not_boosted :
    strContains (lowerStr itemPed.search_text) "pediatric" = true ∧
    apply_context_boosting (1/5) itemPed (some 0) none none none = 1/5 ∧
    apply_context_boosting (1/5) itemPed (some 5) none none none = 1/2 := by
  refine ⟨by decide, ?_, ?_⟩ <;>
  norm_num +decide [apply_context_boosting, age_boost, gender_boost, conditions_boost,
    symptoms_boost, itemPed]

/-- C4 counterexample: the deduplication step sees id "A" with score 2/5
first and with score 4/5 second, and keeps 2/5 — not the maximum 4/5 the
claim prescribes. -/
theorem C4_counterexample :
    resultA4.id = resultB4.id ∧ resultA4.score = 2/5 ∧ resultB4.score = 4/5 ∧
    (dedupe_by_id [resultA4, resultB4] []).map SearchResult.score = [2/5] ∧
    (2/5 : ℚ) ≠ max (2/5) (4/5) := by
  refine ⟨rfl, rfl, rfl, ?_, ?_⟩
  · simp [dedupe_by_id, resultA4, resultB4]
  · rw [max_eq_right (by norm_num : (2/5 : ℚ) ≤ 4/5)]
    norm_num

/-- C4 amended: for each id, the deduplication step of search_terms keeps
the first result seen with that id (in variant processing order), not the
maximum-scoring one: looking an id up in the deduplicated list gives
exactly the first hit in the raw result list. -/
theorem C4_dedupe_keeps_first_not_max (rs : List SearchResult) (i : String) :
    (dedupe_by_id rs []).find? (fun r => r.id == i) =
      rs.find? (fun r => r.id == i) :=
  dedupe_find_of_not_seen i rs [] (List.not_mem_nil i)

/-- C10: context boosting never lowers a base score in [0, 1] (every factor
is at least 1) and never returns more than 1 (the final cap). -/
theorem C10_boost_bounds (score : ℚ) (item : IndexRow) (patient_age : Option ℤ)
    (patient_gender : Option String) (existing_conditions : Option (List String))
    (symptoms : Option (List String)) (h0 : 0 ≤ score) (h1 : score ≤ 1) :
    score ≤ apply_context_boosting score item patient_age patient_gender
        existing_conditions symptoms ∧
      apply_context_boosting score item patient_age patient_gender
        existing_conditions symptoms ≤ 1 := by
  have ha := age_boost_bounds item patient_age score h0
  have hg := gender_boost_bounds item patient_gender _ ha.2
  have hc := conditions_boost_bounds item existing_conditions _ hg.2
  have hs := symptoms_boost_bounds item symptoms _ hc.2
  unfold apply_context_boosting
  constructor
  · exact le_min (le_trans (le_trans (le_trans ha.1 hg.1) hc.1) hs.1) h1
  · exact min_le_right _ _

/-- C10 witness: the bounds at the concrete base score 1/2 on a row with no
marker terms and an empty context. -/
theorem C10_boost_bounds_witness :
    (0 : ℚ) ≤ 1/2 ∧ (1/2 : ℚ) ≤ 1 ∧
    ((1/2 : ℚ) ≤ apply_context_boosting (1/2) item10 none none none none ∧
      apply_context_boosting (1/2) item10 none none none none ≤ 1) :=
  ⟨by norm_num, by norm_num,
    C10_boost_bounds (1/2) item10 none none none none (by norm_num) (by norm_num)⟩

/-- Elements of the accumulator survive the synonym-expansion fold. -/
theorem synfold_mem_mono (q : String) (l : List (String × List String)) :
    ∀ (acc : List String) (x : String), x ∈ acc →
      x ∈ l.foldl (fun acc kv =>
        if kv.2.contains q || kv.2.any (fun syn => strContains q syn) then
          acc ++ kv.2 ++ [kv.1]
        else acc) acc := by
  induction l with
  | nil => intro acc x hx; exact hx
  | cons kv rest ih =>
    intro acc x hx
    simp only [List.foldl_cons]
    apply ih
    split_ifs
    · exact List.mem_append_left _ (List.mem_append_left _ hx)
    · exact hx

/-- A matching entry contributes its key and all its synonyms to the
synonym-expansion fold. -/
theorem synfold_mem_of_match (q : String) (l : List (String × List String)) :
    ∀ (acc : List String) (kv : String × List String), kv ∈ l →
      (kv.2.contains q || kv.2.any (fun syn => strContains q syn)) = true →
      kv.1 ∈ l.foldl (fun acc kv =>
        if kv.2.contains q || kv.2.any (fun syn => strContains q syn) then
          acc ++ kv.2 ++ [kv.1]
        else acc) acc ∧
      ∀ syn ∈ kv.2, syn ∈ l.foldl (fun acc kv =>
        if kv.2.contains q || kv.2.any (fun syn => strContains q syn) then
          acc ++ kv.2 ++ [kv.1]
        else acc) acc := by
  induction l with
  | nil => intro acc kv h; cases h
  | cons kv0 rest ih =>
    intro acc kv hkv hcond
    simp only [List.foldl_cons]
    rcases List.mem_cons.1 hkv with heq | hmem
    · subst heq
      rw [if_pos hcond]
      constructor
      · apply synfold_mem_mono
        simp
      · intro syn hsyn
        apply synfold_mem_mono
        simp [hsyn]
    · exact ih _ kv hmem hcond

/-- With no matching entry the synonym-expansion fold returns its
accumulator unchanged. -/
theorem synfold_no_match (q : String) (l : List (String × List String))
    (hall : ∀ kv ∈ l,
      (kv.2.contains q || kv.2.any (fun syn => strContains q syn)) = false) :
    ∀ (acc : List String),
      l.foldl (fun acc kv =>
        if kv.2.contains q || kv.2.any (fun syn => strContains q syn) then
          acc ++ kv.2 ++ [kv.1]
        else acc) acc = acc := by
  induction l with
  | nil => intro acc; rfl
  | cons kv0 rest ih =>
    intro acc
    simp only [List.foldl_cons]
    have h0 := hall kv0 (List.mem_cons_self _ _)
    rw [if_neg (by rw [h0]; exact Bool.false_ne_true)]
    exact ih (fun kv h => hall kv (List.mem_cons_of_mem _ h)) acc

/-- C5 counterexample: the claim says expand_synonyms "fever" includes
"jwara" and "pyrexia"; on the source, "fever" is a canonical key and the
match condition inspects only synonym lists, so nothing matches and the
result is just ["fever"]. -/
theorem C5_counterexample :
    expand_synonyms "fever" = ["fever"] ∧ "jwara" ∉ expand_synonyms "fever" ∧
      "pyrexia" ∉ expand_synonyms "fever" := by decide

/-- An element lies in the synonym-expansion fold exactly when it lies in
the accumulator or some matching entry contributes it as its key or one of
its synonyms. -/
theorem synfold_mem_iff (q : String) (l : List (String × List String)) :
    ∀ (acc : List String) (x : String),
      x ∈ l.foldl (fun acc kv =>
        if kv.2.contains q || kv.2.any (fun syn => strContains q syn) then
          acc ++ kv.2 ++ [kv.1]
        else acc) acc ↔
      x ∈ acc ∨ ∃ kv ∈ l,
        (kv.2.contains q || kv.2.any (fun syn => strContains q syn)) = true ∧
        (x = kv.1 ∨ x ∈ kv.2) := by
  induction l with
  | nil => intro acc x; simp
  | cons kv0 rest ih =>
    intro acc x
    simp only [List.foldl_cons]
    by_cases h : (kv0.2.contains q || kv0.2.any (fun syn => strContains q syn)) = true
    · rw [if_pos h, ih (acc ++ kv0.2 ++ [kv0.1]) x]
      constructor
      · rintro (hmem | ⟨kv, hkv, hc, hx⟩)
        · rcases List.mem_append.1 hmem with h2 | h3
          · rcases List.mem_append.1 h2 with h4 | h5
            · exact Or.inl h4
            · exact Or.inr ⟨kv0, List.mem_cons_self _ _, h, Or.inr h5⟩
          · exact Or.inr ⟨kv0, List.mem_cons_self _ _, h,
              Or.inl (List.mem_singleton.1 h3)⟩
        · exact Or.inr ⟨kv, List.mem_cons_of_mem _ hkv, hc, hx⟩
      · rintro (hmem | ⟨kv, hkv, hc, hx⟩)
        · exact Or.inl (List.mem_append_left _ (List.mem_append_left _ hmem))
        · rcases List.mem_cons.1 hkv with heq | hm
          · subst heq
            rcases hx with heq1 | hx2
            · exact Or.inl (List.mem_append_right _ (by simp [heq1]))
            · exact Or.inl (List.mem_append_left _ (List.mem_append_right _ hx2))
          · exact Or.inr ⟨kv, hm, hc, hx⟩
    · rw [if_neg h, ih acc x]
      constructor
      · rintro (hmem | ⟨kv, hkv, hc, hx⟩)
        · exact Or.inl hmem
        · exact Or.inr ⟨kv, List.mem_cons_of_mem _ hkv, hc, hx⟩
      · rintro (hmem | ⟨kv, hkv, hc, hx⟩)
        · exact Or.inl hmem
        · rcases List.mem_cons.1 hkv with heq | hm
          · subst heq; exact absurd hc h
          · exact Or.inr ⟨kv, hm, hc, hx⟩

/-- C5 amended: the expansion of a term is exactly the union of the lowered
term and, for every entry whose synonym list contains the lowered term or
one of whose synonyms the lowered term contains, that entry's key and all
its synonyms — nothing else; when no entry matches, the expansion is
exactly the lowered term alone.  The key itself (such as "fever") does not
trigger a match. -/
theorem C5_expand_synonyms_rule (term : String) :
    (∀ x : String, x ∈ expand_synonyms term ↔
      (x = lowerStr term ∨ ∃ kv ∈ SYNONYM_MAP,
        (kv.2.contains (lowerStr term) ||
          kv.2.any (fun syn => strContains (lowerStr term) syn)) = true ∧
        (x = kv.1 ∨ x ∈ kv.2))) ∧
    ((∀ kv ∈ SYNONYM_MAP,
      (kv.2.contains (lowerStr term) ||
        kv.2.any (fun syn => strContains (lowerStr term) syn)) = false) →
      expand_synonyms term = [lowerStr term]) := by
  constructor
  · intro x
    simp only [expand_synonyms, List.mem_dedup, List.mem_append, List.mem_singleton]
    rw [synfold_mem_iff (lowerStr term) SYNONYM_MAP [] x]
    simp
  · intro hall
    simp only [expand_synonyms]
    rw [synfold_no_match (lowerStr term) SYNONYM_MAP hall []]
    rfl

/-- C5 witness: "high temperature" contains the synonym "temperature" of
the entry "fever", so "jwara" belongs to its expansion by the
characterization; and "zzz" matches no entry, so its expansion is exactly
["zzz"]. -/
theorem C5_expand_synonyms_rule_witness :
    "jwara" ∈ expand_synonyms "high temperature" ∧
    (∀ kv ∈ SYNONYM_MAP,
      (kv.2.contains (lowerStr "zzz") ||
        kv.2.any (fun syn => strContains (lowerStr "zzz") syn)) = false) ∧
    expand_synonyms "zzz" = [lowerStr "zzz"] :=
  ⟨((C5_expand_synonyms_rule "high temperature").1 "jwara").mpr
      (Or.inr ⟨("fever", ["jwara", "jvar", "pyrexia", "temperature"]), by decide,
        by decide, Or.inr (by decide)⟩),
    by decide,
    (C5_expand_synonyms_rule "zzz").2 (by decide)⟩

/-- C6 amended: with existing_conditions = ["diabetes"] on a row whose
search text contains "diabetes", the boosted score is never below the
no-context score, never above 1.0, and is strictly greater than the
no-context score exactly when the base score lies strictly between 0 and 1;
at base score 0 or 1 (the latter is every exact match) the two scores are
equal, so the original strict claim fails there. -/
theorem C6_boost_monotone (pr : String → String → ℚ) (item : IndexRow)
    (hdia : strContains (lowerStr item.search_text) "diabetes" = true)
    (hpr : ∀ a b, 0 ≤ pr a b ∧ pr a b ≤ 100) :
    apply_context_boosting (base_score pr "diabetes" item) item none none none none ≤
      apply_context_boosting (base_score pr "diabetes" item) item none none
        (some ["diabetes"]) none ∧
    apply_context_boosting (base_score pr "diabetes" item) item none none
        (some ["diabetes"]) none ≤ 1 ∧
    (apply_context_boosting (base_score pr "diabetes" item) item none none none none <
        apply_context_boosting (base_score pr "diabetes" item) item none none
          (some ["diabetes"]) none ↔
      (0 < base_score pr "diabetes" item ∧ base_score pr "diabetes" item < 1)) ∧
    (base_score pr "diabetes" item = 0 ∨ base_score pr "diabetes" item = 1 →
      apply_context_boosting (base_score pr "diabetes" item) item none none none none =
        apply_context_boosting (base_score pr "diabetes" item) item none none
          (some ["diabetes"]) none) := by
  have hs := base_score_bounds pr "diabetes" item hpr
  set s := base_score pr "diabetes" item with hsdef
  have hlow : lowerStr "diabetes" = "diabetes" := by decide
  have hwo : apply_context_boosting s item none none none none = min s 1 := rfl
  have hw : apply_context_boosting s item none none (some ["diabetes"]) none =
      min (s * 3) 1 := by
    simp only [apply_context_boosting, age_boost, gender_boost, conditions_boost,
      symptoms_boost, condition_step, List.foldl_cons, List.foldl_nil, hlow, hdia,
      if_true]
  rw [hwo, hw, min_eq_left hs.2]
  refine ⟨?_, ?_, ⟨?_, ?_⟩, ?_⟩
  · exact le_min (le_mul_of_one_le_right hs.1 (by norm_num)) hs.2
  · exact min_le_right _ _
  · intro h
    have ha := lt_of_lt_of_le h (min_le_left (s * 3) 1)
    have hb := lt_of_lt_of_le h (min_le_right (s * 3) 1)
    exact ⟨by linarith, hb⟩
  · rintro ⟨h0, h1⟩
    exact lt_min (lt_mul_of_one_lt_right h0 (by norm_num)) h1
  · rintro (hz | ho)
    · rw [hz]; norm_num
    · rw [ho]; norm_num

/-- C6 witness: a constant partial ratio of 50 gives base score 1/2 on a
row whose search text contains "diabetes" without an exact display match;
the bounds, the strictness characterization and the endpoint equality all
hold there. -/
theorem C6_boost_monotone_witness :
    strContains (lowerStr item6w.search_text) "diabetes" = true ∧
    (∀ a b, 0 ≤ pr50 a b ∧ pr50 a b ≤ 100) ∧
    (apply_context_boosting (base_score pr50 "diabetes" item6w) item6w none none none none ≤
      apply_context_boosting (base_score pr50 "diabetes" item6w) item6w none none
        (some ["diabetes"]) none ∧
    apply_context_boosting (base_score pr50 "diabetes" item6w) item6w none none
        (some ["diabetes"]) none ≤ 1 ∧
    (apply_context_boosting (base_score pr50 "diabetes" item6w) item6w none none none none <
        apply_context_boosting (base_score pr50 "diabetes" item6w) item6w none none
          (some ["diabetes"]) none ↔
      (0 < base_score pr50 "diabetes" item6w ∧ base_score pr50 "diabetes" item6w < 1)) ∧
    (base_score pr50 "diabetes" item6w = 0 ∨ base_score pr50 "diabetes" item6w = 1 →
      apply_context_boosting (base_score pr50 "diabetes" item6w) item6w none none none none =
        apply_context_boosting (base_score pr50 "diabetes" item6w) item6w none none
          (some ["diabetes"]) none)) :=
  ⟨by decide, fun a b => ⟨by norm_num [pr50], by norm_num [pr50]⟩,
    C6_boost_monotone pr50 item6w (by decide)
      (fun a b => ⟨by norm_num [pr50], by norm_num [pr50]⟩)⟩

/-- C6 counterexample: the row's search text contains "diabetes" and the
query "diabetes" is an exact display match, so the base score is 1.0; the
capped boosted score with existing_conditions = ["diabetes"] equals the
no-context score (both 1.0) instead of being strictly greater.  The
external scorer is irrelevant here because the exact-match branch is
taken. -/
theorem C6_counterexample :
    strContains (lowerStr item6.search_text) "diabetes" = true ∧
    (search_terms prZero [item6] "diabetes" none none none (some ["diabetes"]) none 10).map
      SearchResult.score = [1] ∧
    (search_terms prZero [item6] "diabetes" none none none none none 10).map
      SearchResult.score = [1] := by
  have h1 : expand_synonyms (map_abbreviations "diabetes") = ["diabetes"] := by decide
  have h4 : base_score prZero "diabetes" item6 = 1 := by
    norm_num +decide [base_score, item6, prZero]
  have h5a : apply_context_boosting 1 item6 none none (some ["diabetes"]) none = 1 := by
    norm_num +decide [apply_context_boosting, age_boost, gender_boost, conditions_boost,
      symptoms_boost, condition_step, item6]
  have h5b : apply_context_boosting 1 item6 none none none none = 1 := by
    norm_num [apply_context_boosting, age_boost, gender_boost, conditions_boost,
      symptoms_boost, item6]
  have h6a : row_result prZero "diabetes" item6 none none none (some ["diabetes"]) none =
      some { id := "R1", code := "C1", display := "diabetes mellitus",
             system := CodeSystemType.NAMASTE, score := 1 } := by
    simp only [row_result, h4, h5a]
    norm_num [item6, mapped_codes_for]
  have h6b : row_result prZero "diabetes" item6 none none none none none =
      some { id := "R1", code := "C1", display := "diabetes mellitus",
             system := CodeSystemType.NAMASTE, score := 1 } := by
    simp only [row_result, h4, h5b]
    norm_num [item6, mapped_codes_for]
  refine ⟨by decide, ?_, ?_⟩
  · simp [search_terms, h1, h6a, dedupe_by_id]
  · simp [search_terms, h1, h6b, dedupe_by_id]

/-- C3: translate_code returns the NotFound result `none` — it is a total
function and never fails — whenever the code is absent from the source
system's collections (by code and by id), the relevant mapping field of the
found record is empty or missing, the TM2-to-NAMASTE reverse scan finds no
matching record, or the source system is BIO (no path is defined from it). -/
theorem C3_translate_not_found (st : TermStore) (code : String)
    (source_system target_system : CodeSystemType)
    (h :
      find_source st source_system code = none ∨
      (source_system = CodeSystemType.NAMASTE ∧
        target_system = CodeSystemType.ICD11_TM2 ∧
        ∃ r, find_source st source_system code = some r ∧
          strTruthyOpt r.icd11_tm2_code = false) ∨
      (source_system = CodeSystemType.NAMASTE ∧
        target_system = CodeSystemType.ICD11_BIO ∧
        ∃ r, find_source st source_system code = some r ∧
          strTruthyOpt r.icd11_bio_code = false) ∨
      (source_system = CodeSystemType.ICD11_TM2 ∧
        target_system = CodeSystemType.ICD11_BIO ∧
        ∃ r, find_source st source_system code = some r ∧
          strTruthyOpt r.icd11_bio_code = false) ∨
      (source_system = CodeSystemType.ICD11_TM2 ∧
        target_system = CodeSystemType.NAMASTE ∧
        st.namaste_data.find? (fun it => it.icd11_tm2_code == some code) = none) ∨
      source_system = CodeSystemType.ICD11_BIO) :
    translate_code st code source_system target_system = none := by
  rcases h with hfs | ⟨hs, ht, r, hr, hf⟩ | ⟨hs, ht, r, hr, hf⟩ |
    ⟨hs, ht, r, hr, hf⟩ | ⟨hs, ht, hrev⟩ | hs
  · simp [translate_code, hfs]
  · subst hs; subst ht
    simp [translate_code, hr, hf]
  · subst hs; subst ht
    simp [translate_code, hr, hf]
  · subst hs; subst ht
    simp [translate_code, hr, hf]
  · subst hs; subst ht
    cases hfs : find_source st CodeSystemType.ICD11_TM2 code with
    | none => simp [translate_code, hfs]
    | some r => simp [translate_code, hfs, hrev, strTruthyOpt]
  · subst hs
    cases hfs : find_source st CodeSystemType.ICD11_BIO code with
    | none => simp [translate_code, hfs]
    | some r => simp [translate_code, hfs, strTruthyOpt]

/-- C3 witness: translating from BIO returns NotFound. -/
theorem C3_translate_not_found_witness :
    translate_code store3 "X" CodeSystemType.ICD11_BIO CodeSystemType.NAMASTE = none :=
  C3_translate_not_found store3 "X" CodeSystemType.ICD11_BIO CodeSystemType.NAMASTE
    (Or.inr (Or.inr (Or.inr (Or.inr (Or.inr rfl)))))

/-- C2: for a NAMASTE record `r` (the one its code looks up) whose
icd11_tm2_code is a non-empty code X and whose mapping confidence c is
stored, translating r.code to TM2 yields target code X with confidence c;
and when X is a registered TM2 code and r is the first NAMASTE record
mapping to X, translating X back to NAMASTE yields r.code with confidence
c × 0.9: the round trip preserves the code and decays only the
confidence. -/
theorem C2_round_trip (st : TermStore) (r t : TermRecord) (X : String) (c : ℚ)
    (hfind : find_source st CodeSystemType.NAMASTE r.code = some r)
    (hX : r.icd11_tm2_code = some X) (hXne : X ≠ "")
    (hconf : r.mapping_confidence = some c)
    (htm2 : find_source st CodeSystemType.ICD11_TM2 X = some t)
    (hrev : st.namaste_data.find? (fun it => it.icd11_tm2_code == some X) = some r)
    (hcode : r.code ≠ "") :
    (translate_code st r.code CodeSystemType.NAMASTE CodeSystemType.ICD11_TM2).map
      (fun resp => (resp.target_code, resp.confidence)) = some (X, c) ∧
    (translate_code st X CodeSystemType.ICD11_TM2 CodeSystemType.NAMASTE).map
      (fun resp => (resp.target_code, resp.confidence)) = some (r.code, c * (9/10)) := by
  constructor
  · simp [translate_code, hfind, hX, hconf, strTruthyOpt, hXne, optStr]
  · simp [translate_code, htm2, hrev, hconf, strTruthyOpt, hcode, optStr]

/-- C2 witness: the round trip on a concrete store with one NAMASTE record
"AY001" mapped to TM2 code "TM26.0" with stored confidence 0.9. -/
theorem C2_round_trip_witness :
    find_source store2 CodeSystemType.NAMASTE nrec2.code = some nrec2 ∧
    nrec2.icd11_tm2_code = some "TM26.0" ∧ ("TM26.0" : String) ≠ "" ∧
    nrec2.mapping_confidence = some (9/10) ∧
    find_source store2 CodeSystemType.ICD11_TM2 "TM26.0" = some trec2 ∧
    store2.namaste_data.find? (fun it => it.icd11_tm2_code == some "TM26.0") = some nrec2 ∧
    nrec2.code ≠ "" ∧
    ((translate_code store2 nrec2.code CodeSystemType.NAMASTE CodeSystemType.ICD11_TM2).map
      (fun resp => (resp.target_code, resp.confidence)) = some ("TM26.0", 9/10) ∧
    (translate_code store2 "TM26.0" CodeSystemType.ICD11_TM2 CodeSystemType.NAMASTE).map
      (fun resp => (resp.target_code, resp.confidence)) = some (nrec2.code, (9/10) * (9/10))) := by
  have hfind : find_source store2 CodeSystemType.NAMASTE nrec2.code = some nrec2 := by
    norm_num [find_source, dictGet, store2, nrec2]
  have htm2 : find_source store2 CodeSystemType.ICD11_TM2 "TM26.0" = some trec2 := by
    norm_num [find_source, dictGet, store2, trec2]
  have hrev : store2.namaste_data.find?
      (fun it => it.icd11_tm2_code == some "TM26.0") = some nrec2 := by
    norm_num [store2, nrec2]
  exact ⟨hfind, rfl, by decide, rfl, htm2, hrev, by decide,
    C2_round_trip store2 nrec2 trec2 "TM26.0" (9/10) hfind rfl (by decide) rfl htm2
      hrev (by decide)⟩

/-- C1: for every scorer, index, query, system filter, patient context and
limit, search_terms returns at most `limit` results, with pairwise
distinct ids, and with scores non-increasing in list order. -/
theorem C1_search_limited_nodup_sorted (pr : String → String → ℚ)
    (index : List IndexRow) (query : String) (system : Option CodeSystemType)
    (patient_age : Option ℤ) (patient_gender : Option String)
    (existing_conditions : Option (List String)) (symptoms : Option (List String))
    (limit : ℕ) :
    (search_terms pr index query system patient_age patient_gender
        existing_conditions symptoms limit).length ≤ limit ∧
    ((search_terms pr index query system patient_age patient_gender
        existing_conditions symptoms limit).map SearchResult.id).Nodup ∧
    (search_terms pr index query system patient_age patient_gender
        existing_conditions symptoms limit).Pairwise scoreGe := by
  simp only [search_terms]
  refine ⟨?_, ?_, ?_⟩
  · rw [List.length_take]
    exact min_le_left _ _
  · rw [List.map_take]
    have h1 := dedupe_map_nodup ((expand_synonyms (map_abbreviations query)).flatMap
      (fun sq => index.filterMap (fun item =>
        row_result pr sq item system patient_age patient_gender
          existing_conditions symptoms))) []
    have hperm := List.perm_insertionSort scoreGe
      (dedupe_by_id ((expand_synonyms (map_abbreviations query)).flatMap
        (fun sq => index.filterMap (fun item =>
          row_result pr sq item system patient_age patient_gender
            existing_conditions symptoms))) [])
    have h2 := ((hperm.map SearchResult.id).nodup_iff).2 h1
    exact h2.sublist (List.take_sublist _ _)
  · have hsorted := List.sorted_insertionSort scoreGe
      (dedupe_by_id ((expand_synonyms (map_abbreviations query)).flatMap
        (fun sq => index.filterMap (fun item =>
          row_result pr sq item system patient_age patient_gender
            existing_conditions symptoms))) [])
    exact List.Pairwise.sublist (List.take_sublist _ _) hsorted
